import Mathlib

/-!
Verification of the `sagemaker-fsx` training entry point (`src/train.py`).

The program is a single linear job runner: it parses configuration from
environment variables and command-line overrides, lists a training
directory, runs a fixed sleep loop of 5 epochs, creates the model output
directory tree and writes a fixed placeholder artifact file.

We embed the script shallowly:
* the filesystem is an explicit state (`FS`): an association list from
  directory path to its ordered entry listing (the order `os.listdir`
  would report), and an association list from file path to content;
* `train` is the Lean rendering of the Python function `train`, returning
  the result (success or the raised error), the new filesystem state, and
  the ordered trace of observable events (prints, listing, sleeps,
  directory creation, file write);
* `mainEntry` renders the `__main__` block, including the fact that
  `argparse` defaults of the form `os.environ["X"]` are evaluated eagerly
  at `add_argument` time, before the command line is consulted.
-/

/-- Association-list lookup keyed by `String` (used for both the
directory table and the file table of the filesystem model). -/
def lookupA {β : Type} (k : String) : List (String × β) → Option β
  | [] => none
  | (k', v) :: rest => if k = k' then some v else lookupA k rest

/-- Filesystem state: existing directories with their ordered entry
listings, and existing regular files with their contents. -/
structure FS where
  dirEntries : List (String × List String)
  files : List (String × String)
deriving DecidableEq

/-- Parsed arguments, as produced by `argparse` in `train.py`
(fields `model_dir`, `checkpoint_dir`, `training_dir`). -/
structure Args where
  model_dir : String
  checkpoint_dir : String
  training_dir : String
deriving DecidableEq

/-- Observable events of one run, in program order. -/
inductive Event where
  /-- The args-echo print at the top of the function; it echoes every parsed field. -/
  | printArgs (modelDir checkpointDir trainingDir : String)
  /-- The listing call on the training directory, with its result. -/
  | listDir (path : String) (entries : List String)
  /-- The print of the listing result. -/
  | printListing (entries : List String)
  /-- The print at the start of epoch number `n`. -/
  | epochStart (n : Nat)
  /-- The sleep call, with its duration in time units. -/
  | sleepSec (n : Nat)
  /-- The print at the end of epoch number `n`. -/
  | epochEnd (n : Nat)
  /-- The directory-creation call preceding the artifact write. -/
  | mkdirsCall (path : String)
  /-- The artifact write: open for (truncating) write, then write the payload. -/
  | fileWrite (path content : String)
deriving DecidableEq

/-- The error taxonomy of the job (the Python exceptions that can
propagate out of `train.py`). -/
inductive RunError where
  /-- the KeyError raised by an os.environ lookup at parser construction -/
  | configurationMissing (envVar : String)
  /-- the FileNotFoundError or NotADirectoryError raised by os.listdir -/
  | directoryNotFound (path : String)
  /-- an OSError raised by os.makedirs or by the artifact write -/
  | writeFailure
deriving DecidableEq

instance {ε α : Type} [DecidableEq ε] [DecidableEq α] : DecidableEq (Except ε α) :=
  fun a b =>
    match a, b with
    | .ok x, .ok y =>
        if h : x = y then isTrue (by rw [h])
        else isFalse (by intro hh; cases hh; exact h rfl)
    | .error x, .error y =>
        if h : x = y then isTrue (by rw [h])
        else isFalse (by intro hh; cases hh; exact h rfl)
    | .ok _, .error _ => isFalse (by intro hh; cases hh)
    | .error _, .ok _ => isFalse (by intro hh; cases hh)

/-- Outcome of one run: the result, the final filesystem state, and the
ordered event trace. -/
structure RunOut where
  result : Except RunError Unit
  fs : FS
  events : List Event
deriving DecidableEq

/-- Models `os.listdir p`: the ordered entries of directory `p`, or
`none` when `p` does not exist or is not a directory. -/
def listdir (fs : FS) (p : String) : Option (List String) :=
  lookupA p fs.dirEntries

/-- Split a character list at every `'/'` (the components of a POSIX
path, as `p.split("/")` would produce them). -/
def splitSlash (l : List Char) : List (List Char) :=
  match l with
  | [] => [[]]
  | c :: rest =>
    match splitSlash rest with
    | [] => [[]]
    | h :: t => if c = '/' then [] :: h :: t else (c :: h) :: t

/-- Join components with `'/'` (inverse of `splitSlash`). -/
def joinSlash : List (List Char) → List Char
  | [] => []
  | [x] => x
  | x :: xs => x ++ '/' :: joinSlash xs

/-- The chain of ancestor directories `os.makedirs p` creates, outermost
first: every non-empty prefix of `p` that ends at a component boundary,
ending with `p` itself. -/
def mkChain (p : String) : List String :=
  let parts := splitSlash p.data
  (((List.range parts.length).map
      (fun i => joinSlash (parts.take (i + 1)))).filter
    (fun l => l ≠ [])).map (fun l => ⟨l⟩)

/-- Create directory `q` if it does not exist yet (a single `mkdir`). -/
def addDir (fs : FS) (q : String) : FS :=
  match lookupA q fs.dirEntries with
  | some _ => fs
  | none => { fs with dirEntries := (q, []) :: fs.dirEntries }

/-- Models `os.makedirs(p, exist_ok=ok)`: creates the missing ancestors
and `p`; raises `FileExistsError` (here `none`) when `p` already exists
and `exist_ok` is false. -/
def makedirs (fs : FS) (p : String) (exist_ok : Bool) : Option FS :=
  if exist_ok = false ∧ (lookupA p fs.dirEntries).isSome then none
  else some ((mkChain p).foldl addDir fs)

/-- Models `open(p, "w")` + `f.write(content)`: truncating write, the
file table keeps a single entry for `p`. -/
def writeFile (fs : FS) (p content : String) : FS :=
  { fs with files := (p, content) :: fs.files.filter (fun kv => kv.1 ≠ p) }

/-- Read back the content of a file (`none` when the file does not exist). -/
def readFile (fs : FS) (p : String) : Option String :=
  lookupA p fs.files

/-- The artifact path: `args.model_dir` concatenated (as a plain string,
line 25 of the source) with the literal `"/model.dummy"`. -/
def modelFilename (args : Args) : String :=
  args.model_dir ++ "/model.dummy"

/-- Models `os.path.dirname` (POSIX): everything up to and including the
last `'/'`, then, when that head is non-empty and not all slashes, with
its trailing slashes stripped. -/
def dirname (p : String) : String :=
  let r := p.data.reverse
  let hr := r.dropWhile (fun c => c ≠ '/')
  let head := hr.reverse
  if head ≠ [] ∧ head.any (fun c => c ≠ '/') then
    ⟨(hr.dropWhile (fun c => c = '/')).reverse⟩
  else ⟨head⟩

/-- The three events of one epoch iteration of the loop
`for x in range(epochs)`. -/
def epochEvents (x : Nat) : List Event :=
  [Event.epochStart x, Event.sleepSec 2, Event.epochEnd x]

/-- The function `train(args)` of `train.py`, lines 11–28, as a state
transformer on the filesystem with an explicit event trace. -/
def train (args : Args) (fs : FS) : RunOut :=
  let ev0 := Event.printArgs args.model_dir args.checkpoint_dir args.training_dir
  match listdir fs args.training_dir with
  | none =>
      { result := .error (.directoryNotFound args.training_dir)
        fs := fs
        events := [ev0] }
  | some tmp =>
      let epochs := 5
      let loopEvents := (List.range epochs).flatMap epochEvents
      let model_filename := modelFilename args
      match makedirs fs (dirname model_filename) true with
      | none =>
          { result := .error .writeFailure
            fs := fs
            events := [ev0, .listDir args.training_dir tmp, .printListing tmp] ++ loopEvents }
      | some fs1 =>
          { result := .ok ()
            fs := writeFile fs1 model_filename "Dummy model."
            events :=
              [ev0, .listDir args.training_dir tmp, .printListing tmp] ++ loopEvents ++
                [.mkdirsCall (dirname model_filename),
                 .fileWrite model_filename "Dummy model."] }

/-- Process environment: the two variables the script reads. -/
structure Env where
  SM_MODEL_DIR : Option String
  SM_CHANNEL_TRAIN : Option String
deriving DecidableEq

/-- Command line: each flag either supplied or absent. -/
structure Cmdline where
  model_dir : Option String
  checkpoint_dir : Option String
  training_dir : Option String
deriving DecidableEq

/-- The `argparse` setup of `train.py`, lines 33–38. The defaults
`os.environ["SM_MODEL_DIR"]` (line 34) and `os.environ["SM_CHANNEL_TRAIN"]`
(line 36) are evaluated eagerly when the argument is added — before the
command line is parsed — so a missing variable raises `KeyError` even
when the corresponding flag is supplied. -/
def parseArgs (env : Env) (cmd : Cmdline) : Except RunError Args :=
  match env.SM_MODEL_DIR with
  | none => .error (.configurationMissing "SM_MODEL_DIR")
  | some dModel =>
    match env.SM_CHANNEL_TRAIN with
    | none => .error (.configurationMissing "SM_CHANNEL_TRAIN")
    | some dTrain =>
      .ok { model_dir := cmd.model_dir.getD dModel
            checkpoint_dir := cmd.checkpoint_dir.getD "/opt/ml/checkpoints"
            training_dir := cmd.training_dir.getD dTrain }

/-- The `__main__` block: build the parser (which may already fail with
`KeyError`), parse the arguments, run `train`. On a startup failure
nothing has run: the trace is empty and the filesystem untouched. -/
def mainEntry (env : Env) (cmd : Cmdline) (fs : FS) : RunOut :=
  match parseArgs env cmd with
  | .error e => { result := .error e, fs := fs, events := [] }
  | .ok args => train args fs

/-! ## Helper lemmas about the filesystem model -/

theorem lookupA_addDir_some {fs : FS} {q q' : String} {v}
    (h : lookupA q fs.dirEntries = some v) :
    lookupA q (addDir fs q').dirEntries = some v := by
  unfold addDir
  cases hq' : lookupA q' fs.dirEntries with
  | some w => simpa using h
  | none =>
    simp only [lookupA]
    by_cases he : q = q'
    · subst he; rw [h] at hq'; cases hq'
    · simpa [he] using h

theorem lookupA_foldl_addDir_some {chain : List String} {fs : FS} {q : String} {v}
    (h : lookupA q fs.dirEntries = some v) :
    lookupA q ((chain.foldl addDir fs).dirEntries) = some v := by
  induction chain generalizing fs with
  | nil => simpa using h
  | cons a rest ih =>
    simp only [List.foldl_cons]
    exact ih (lookupA_addDir_some h)

theorem lookupA_addDir_self_isSome (fs : FS) (q : String) :
    (lookupA q (addDir fs q).dirEntries).isSome := by
  unfold addDir
  cases hq : lookupA q fs.dirEntries with
  | some w => simp [hq]
  | none => simp [lookupA]

theorem lookupA_foldl_addDir_mem {chain : List String} {fs : FS} {q : String}
    (h : q ∈ chain) :
    (lookupA q ((chain.foldl addDir fs).dirEntries)).isSome := by
  induction chain generalizing fs with
  | nil => cases h
  | cons a rest ih =>
    simp only [List.foldl_cons]
    rcases List.mem_cons.mp h with he | hm
    · subst he
      have h1 := lookupA_addDir_self_isSome fs q
      cases h2 : lookupA q (addDir fs q).dirEntries with
      | none => rw [h2] at h1; cases h1
      | some v =>
        have := @lookupA_foldl_addDir_some rest (addDir fs q) q v h2
        simp [this]
    · exact ih hm

theorem lookupA_addDir_ne {fs : FS} {q q' : String} (h : q ≠ q') :
    lookupA q (addDir fs q').dirEntries = lookupA q fs.dirEntries := by
  unfold addDir
  cases hq' : lookupA q' fs.dirEntries with
  | some w => rfl
  | none => simp [lookupA, h]

theorem lookupA_foldl_addDir_not_mem {chain : List String} {fs : FS} {q : String}
    (h : q ∉ chain) :
    lookupA q ((chain.foldl addDir fs).dirEntries) = lookupA q fs.dirEntries := by
  induction chain generalizing fs with
  | nil => rfl
  | cons a rest ih =>
    simp only [List.foldl_cons]
    have hne : q ≠ a := fun he => h (he ▸ List.mem_cons_self a rest)
    have hm : q ∉ rest := fun hm => h (List.mem_cons_of_mem a hm)
    rw [ih hm, lookupA_addDir_ne hne]

theorem addDir_isSome_id {fs : FS} {q : String}
    (h : (lookupA q fs.dirEntries).isSome) : addDir fs q = fs := by
  unfold addDir
  cases hq : lookupA q fs.dirEntries with
  | some w => rfl
  | none => rw [hq] at h; cases h

theorem foldl_addDir_id {chain : List String} {fs : FS}
    (h : ∀ q ∈ chain, (lookupA q fs.dirEntries).isSome) :
    chain.foldl addDir fs = fs := by
  induction chain with
  | nil => rfl
  | cons a rest ih =>
    simp only [List.foldl_cons]
    rw [addDir_isSome_id (h a (List.mem_cons_self a rest))]
    exact ih (fun q hq => h q (List.mem_cons_of_mem a hq))

theorem makedirs_existOk (fs : FS) (p : String) :
    makedirs fs p true = some ((mkChain p).foldl addDir fs) := by
  simp [makedirs]

theorem dirEntries_writeFile (fs : FS) (p c : String) :
    (writeFile fs p c).dirEntries = fs.dirEntries := rfl

theorem readFile_writeFile_self (fs : FS) (p c : String) :
    readFile (writeFile fs p c) p = some c := by
  simp [readFile, writeFile, lookupA]

theorem lookupA_filter_ne {l : List (String × String)} {k p : String} (h : k ≠ p) :
    lookupA k (l.filter (fun kv => kv.1 ≠ p)) = lookupA k l := by
  induction l with
  | nil => rfl
  | cons kv rest ih =>
    obtain ⟨k', v⟩ := kv
    by_cases hkv : k' = p
    · subst hkv
      rw [List.filter_cons_of_neg (by simp)]
      rw [ih]
      simp [lookupA, h]
    · rw [List.filter_cons_of_pos (by simp [hkv])]
      simp only [lookupA]
      by_cases he : k = k'
      · simp [he]
      · rw [if_neg he, if_neg he]
        exact ih

theorem readFile_writeFile_ne {fs : FS} {k p : String} (c : String) (h : k ≠ p) :
    readFile (writeFile fs p c) k = readFile fs k := by
  simp only [readFile, writeFile, lookupA, if_neg h]
  exact lookupA_filter_ne h

theorem filter_ne_idem (l : List (String × String)) (p : String) :
    (l.filter (fun kv => kv.1 ≠ p)).filter (fun kv => kv.1 ≠ p)
      = l.filter (fun kv => kv.1 ≠ p) := by
  induction l with
  | nil => rfl
  | cons kv rest ih =>
    by_cases hkv : kv.1 = p
    · rw [List.filter_cons_of_neg (by simp [hkv])]; exact ih
    · rw [List.filter_cons_of_pos (by simp [hkv]),
        List.filter_cons_of_pos (by simp [hkv]), ih]

theorem writeFile_idem (fs : FS) (p c : String) :
    writeFile (writeFile fs p c) p c = writeFile fs p c := by
  simp only [writeFile]
  congr 1
  rw [List.filter_cons_of_neg (by simp), filter_ne_idem]

theorem dropWhile_append_all {P : Char → Bool} {l₁ l₂ : List Char}
    (h : ∀ a ∈ l₁, P a = true) :
    (l₁ ++ l₂).dropWhile P = l₂.dropWhile P := by
  induction l₁ with
  | nil => rfl
  | cons a rest ih =>
    rw [List.cons_append, List.dropWhile_cons_of_pos (h a (List.mem_cons_self a rest))]
    exact ih (fun x hx => h x (List.mem_cons_of_mem a hx))

theorem dirname_modelFilename (md : String) (h1 : md.data ≠ [])
    (h2 : md.data.getLast? ≠ some '/') :
    dirname (md ++ "/model.dummy") = md := by
  obtain h | ⟨l', c, hc⟩ := List.eq_nil_or_concat md.data
  · exact absurd h h1
  rw [List.concat_eq_append] at hc
  have hcne : ¬ (c = '/') := fun he => h2 (by rw [hc, he, List.getLast?_concat])
  simp only [dirname]
  rw [String.data_append, hc]
  have hrest : ("/model.dummy" : String).data = '/' :: ("model.dummy" : String).data := rfl
  rw [hrest]
  rw [List.reverse_append, List.reverse_cons, List.reverse_append, List.reverse_singleton]
  rw [List.singleton_append, List.append_assoc, List.singleton_append]
  rw [dropWhile_append_all (by decide)]
  rw [List.dropWhile_cons_of_neg (by simp)]
  rw [if_pos ?side]
  case side =>
    constructor
    · simp
    · rw [List.any_eq_true]
      refine ⟨c, ?_, by simp [hcne]⟩
      simp
  rw [List.dropWhile_cons_of_pos (by simp)]
  rw [List.dropWhile_cons_of_neg (by simp [hcne])]
  rw [List.reverse_cons, List.reverse_reverse]
  rw [← hc]

theorem train_eq_of_listdir_none {args : Args} {fs : FS}
    (h : listdir fs args.training_dir = none) :
    train args fs =
      { result := .error (.directoryNotFound args.training_dir)
        fs := fs
        events := [.printArgs args.model_dir args.checkpoint_dir args.training_dir] } := by
  simp only [train]
  rw [h]

theorem train_eq_of_listdir_some {args : Args} {fs : FS} {tmp : List String}
    (h : listdir fs args.training_dir = some tmp) :
    train args fs =
      { result := .ok ()
        fs := writeFile ((mkChain (dirname (modelFilename args))).foldl addDir fs)
                (modelFilename args) "Dummy model."
        events :=
          [.printArgs args.model_dir args.checkpoint_dir args.training_dir,
           .listDir args.training_dir tmp, .printListing tmp]
          ++ (List.range 5).flatMap epochEvents
          ++ [.mkdirsCall (dirname (modelFilename args)),
              .fileWrite (modelFilename args) "Dummy model."] } := by
  simp only [train]
  rw [h, makedirs_existOk]

/-! ## Further helper lemmas -/

theorem files_addDir (fs : FS) (q : String) : (addDir fs q).files = fs.files := by
  unfold addDir
  cases lookupA q fs.dirEntries <;> rfl

theorem files_foldl_addDir (chain : List String) (fs : FS) :
    (chain.foldl addDir fs).files = fs.files := by
  induction chain generalizing fs with
  | nil => rfl
  | cons a rest ih => rw [List.foldl_cons, ih, files_addDir]

theorem filter_eq_of_filter_ne (l : List (String × String)) (p : String) :
    ((l.filter (fun kv => kv.1 ≠ p)).filter (fun kv => kv.1 = p)) = [] := by
  induction l with
  | nil => rfl
  | cons kv rest ih =>
    by_cases hkv : kv.1 = p
    · rw [List.filter_cons_of_neg (by simp [hkv])]
      exact ih
    · rw [List.filter_cons_of_pos (by simp [hkv]), List.filter_cons_of_neg (by simp [hkv])]
      exact ih

theorem train_result_ne_config (args : Args) (fs : FS) (v : String) :
    (train args fs).result ≠ .error (.configurationMissing v) := by
  cases h : listdir fs args.training_dir with
  | none => rw [train_eq_of_listdir_none h]; simp
  | some tmp => rw [train_eq_of_listdir_some h]; simp

/-! ## Concrete fixtures -/

/-- A filesystem whose training directory lists `a.csv` then `b.csv`. -/
def fsAB : FS := ⟨[("/data", ["a.csv", "b.csv"])], []⟩

/-- A filesystem whose training directory holds the same two files but
lists them in the opposite order. -/
def fsBA : FS := ⟨[("/data", ["b.csv", "a.csv"])], []⟩

/-- An empty filesystem (no directories at all). -/
def fsEmpty : FS := ⟨[], []⟩

/-- The arguments of the scenario of the spec. -/
def argsStd : Args := ⟨"/tmp/out", "/opt/ml/checkpoints", "/data"⟩

/-- Arguments pointing at a missing training directory. -/
def argsNoDir : Args := ⟨"/tmp/out", "/opt/ml/checkpoints", "/nope"⟩

/-- Two argument sets that differ only in `checkpoint_dir`. -/
def argsCk1 : Args := ⟨"/tmp/out", "/ckpt1", "/data"⟩

def argsCk2 : Args := ⟨"/tmp/out", "/ckpt2", "/data"⟩

/-! ## C1 -/

/-- C1: for every valid `model_dir`, after a successful run the file
`<model_dir>/model.dummy` exists and its content is exactly the literal
`"Dummy model."` (write-then-read round-trip). -/
theorem artifact_roundtrip (args : Args) (fs : FS)
    (h : (listdir fs args.training_dir).isSome = true) :
    (train args fs).result = .ok () ∧
    readFile (train args fs).fs (args.model_dir ++ "/model.dummy")
      = some "Dummy model." := by
  obtain ⟨tmp, htmp⟩ := Option.isSome_iff_exists.mp h
  rw [train_eq_of_listdir_some htmp]
  exact ⟨rfl, readFile_writeFile_self _ _ _⟩

theorem artifact_roundtrip_witness :
    (listdir fsAB argsStd.training_dir).isSome = true ∧
    ((train argsStd fsAB).result = .ok () ∧
     readFile (train argsStd fsAB).fs (argsStd.model_dir ++ "/model.dummy")
       = some "Dummy model.") :=
  ⟨by decide, artifact_roundtrip argsStd fsAB (by decide)⟩

/-! ## C2 -/

/-- C2: the listing step fails with `directoryNotFound` exactly when
`training_dir` is not an existing directory; for every existing directory
the run completes successfully, and on the error the filesystem is left
unchanged (in particular no artifact is written). -/
theorem listing_failure_iff (args : Args) (fs : FS) :
    ((train args fs).result = .error (.directoryNotFound args.training_dir) ↔
      listdir fs args.training_dir = none) ∧
    (listdir fs args.training_dir = none → (train args fs).fs = fs) ∧
    ((listdir fs args.training_dir).isSome = true →
      (train args fs).result = .ok ()) := by
  cases h : listdir fs args.training_dir with
  | none => simp [train_eq_of_listdir_none h]
  | some tmp => simp [train_eq_of_listdir_some h]

theorem listing_failure_iff_witness :
    ((train argsNoDir fsAB).result
        = .error (.directoryNotFound argsNoDir.training_dir) ↔
      listdir fsAB argsNoDir.training_dir = none) ∧
    (listdir fsAB argsNoDir.training_dir = none →
      (train argsNoDir fsAB).fs = fsAB) ∧
    ((listdir fsAB argsNoDir.training_dir).isSome = true →
      (train argsNoDir fsAB).result = .ok ()) :=
  listing_failure_iff argsNoDir fsAB

/-! ## C3 -/

/-- C3 counterexample: with `SM_MODEL_DIR` unset but `--model-dir`
supplied on the command line, the job still fails at startup with
`configurationMissing` — the `argparse` default `os.environ["SM_MODEL_DIR"]`
is evaluated before the override is even read, so the override does not
prevent the failure. -/
theorem override_does_not_prevent_failure :
    (mainEntry ⟨none, some "/data"⟩ ⟨some "/tmp/out", none, none⟩ fsAB).result
      = .error (.configurationMissing "SM_MODEL_DIR") := by decide

/-- C3 amended: a `configurationMissing` startup failure occurs exactly
when a required environment variable is absent, regardless of any
command-line override; when both variables are present, `--model-dir`
does override the model output directory. -/
theorem config_missing_iff (env : Env) (cmd : Cmdline) (fs : FS) :
    ((∃ v, (mainEntry env cmd fs).result = .error (.configurationMissing v)) ↔
      (env.SM_MODEL_DIR = none ∨ env.SM_CHANNEL_TRAIN = none)) ∧
    (∀ dm dt m, env.SM_MODEL_DIR = some dm → env.SM_CHANNEL_TRAIN = some dt →
      cmd.model_dir = some m →
      ∃ args, parseArgs env cmd = .ok args ∧ args.model_dir = m ∧
        mainEntry env cmd fs = train args fs) := by
  constructor
  · constructor
    · rintro ⟨v, hv⟩
      by_contra hno
      push_neg at hno
      obtain ⟨dm, hdm⟩ := Option.ne_none_iff_exists'.mp hno.1
      obtain ⟨dt, hdt⟩ := Option.ne_none_iff_exists'.mp hno.2
      simp only [mainEntry, parseArgs, hdm, hdt] at hv
      exact train_result_ne_config _ _ _ hv
    · rintro (h | h)
      · exact ⟨"SM_MODEL_DIR", by simp [mainEntry, parseArgs, h]⟩
      · cases hmd : env.SM_MODEL_DIR with
        | none => exact ⟨"SM_MODEL_DIR", by simp [mainEntry, parseArgs, hmd]⟩
        | some dm =>
            exact ⟨"SM_CHANNEL_TRAIN", by simp [mainEntry, parseArgs, hmd, h]⟩
  · intro dm dt m hdm hdt hm
    refine ⟨{ model_dir := m
              checkpoint_dir := cmd.checkpoint_dir.getD "/opt/ml/checkpoints"
              training_dir := cmd.training_dir.getD dt }, ?_, rfl, ?_⟩
    · simp [parseArgs, hdm, hdt, hm]
    · simp [mainEntry, parseArgs, hdm, hdt, hm]

theorem config_missing_iff_witness :
    ∃ args,
      parseArgs ⟨some "/env/m", some "/data"⟩ ⟨some "/cli/m", none, none⟩
        = .ok args ∧
      args.model_dir = "/cli/m" ∧
      mainEntry ⟨some "/env/m", some "/data"⟩ ⟨some "/cli/m", none, none⟩ fsAB
        = train args fsAB :=
  (config_missing_iff ⟨some "/env/m", some "/data"⟩
    ⟨some "/cli/m", none, none⟩ fsAB).2 "/env/m" "/data" "/cli/m" rfl rfl rfl

/-! ## C4 -/

/-- C4: with neither `--model-dir` nor `SM_MODEL_DIR` set, the job fails
with `configurationMissing` before any work: the event trace is empty (in
particular no directory listing happened) and the filesystem is
untouched. -/
theorem config_missing_before_any_work (env : Env) (cmd : Cmdline) (fs : FS)
    (_h1 : cmd.model_dir = none) (h2 : env.SM_MODEL_DIR = none) :
    (mainEntry env cmd fs).result = .error (.configurationMissing "SM_MODEL_DIR") ∧
    (mainEntry env cmd fs).events = [] ∧
    (mainEntry env cmd fs).fs = fs := by
  simp [mainEntry, parseArgs, h2]

theorem config_missing_before_any_work_witness :
    (mainEntry ⟨none, some "/data"⟩ ⟨none, none, none⟩ fsAB).result
      = .error (.configurationMissing "SM_MODEL_DIR") ∧
    (mainEntry ⟨none, some "/data"⟩ ⟨none, none, none⟩ fsAB).events = [] ∧
    (mainEntry ⟨none, some "/data"⟩ ⟨none, none, none⟩ fsAB).fs = fsAB :=
  config_missing_before_any_work ⟨none, some "/data"⟩ ⟨none, none, none⟩ fsAB
    rfl rfl

/-! ## C5 -/

/-- C5: on a successful run the trace is the strict linear sequence
list → simulate → persist: the listing (and its print) comes first, then
exactly 5 epoch iterations each pausing for exactly 2 time units, then
the directory creation and the artifact write — with no branching on the
content of the listing. -/
theorem linear_five_epochs (args : Args) (fs : FS) (tmp : List String)
    (h : listdir fs args.training_dir = some tmp) :
    (train args fs).events =
      [Event.printArgs args.model_dir args.checkpoint_dir args.training_dir,
       Event.listDir args.training_dir tmp, Event.printListing tmp,
       Event.epochStart 0, Event.sleepSec 2, Event.epochEnd 0,
       Event.epochStart 1, Event.sleepSec 2, Event.epochEnd 1,
       Event.epochStart 2, Event.sleepSec 2, Event.epochEnd 2,
       Event.epochStart 3, Event.sleepSec 2, Event.epochEnd 3,
       Event.epochStart 4, Event.sleepSec 2, Event.epochEnd 4,
       Event.mkdirsCall (dirname (modelFilename args)),
       Event.fileWrite (modelFilename args) "Dummy model."] := by
  rw [train_eq_of_listdir_some h]
  rfl

theorem linear_five_epochs_witness :
    (train argsStd fsAB).events =
      [Event.printArgs argsStd.model_dir argsStd.checkpoint_dir argsStd.training_dir,
       Event.listDir argsStd.training_dir ["a.csv", "b.csv"],
       Event.printListing ["a.csv", "b.csv"],
       Event.epochStart 0, Event.sleepSec 2, Event.epochEnd 0,
       Event.epochStart 1, Event.sleepSec 2, Event.epochEnd 1,
       Event.epochStart 2, Event.sleepSec 2, Event.epochEnd 2,
       Event.epochStart 3, Event.sleepSec 2, Event.epochEnd 3,
       Event.epochStart 4, Event.sleepSec 2, Event.epochEnd 4,
       Event.mkdirsCall (dirname (modelFilename argsStd)),
       Event.fileWrite (modelFilename argsStd) "Dummy model."] :=
  linear_five_epochs argsStd fsAB ["a.csv", "b.csv"] (by decide)

/-! ## C6 -/

/-- C6: rerunning the job with the same `model_dir` is idempotent: the
second run succeeds (pre-existing directories are not an error), the
whole filesystem state after the second run equals the state after the
first (the artifact is overwritten with identical content), and the file
table holds exactly one entry for the artifact path. -/
theorem rerun_idempotent (args : Args) (fs : FS)
    (h : (listdir fs args.training_dir).isSome = true) :
    (train args (train args fs).fs).result = .ok () ∧
    (train args (train args fs).fs).fs = (train args fs).fs ∧
    ((train args fs).fs.files.filter
        (fun kv => kv.1 = modelFilename args)).length = 1 := by
  obtain ⟨tmp, htmp⟩ := Option.isSome_iff_exists.mp h
  have h1 := @train_eq_of_listdir_some args fs tmp htmp
  have hfs1 : (train args fs).fs =
      writeFile ((mkChain (dirname (modelFilename args))).foldl addDir fs)
        (modelFilename args) "Dummy model." := by rw [h1]
  have hld : listdir (train args fs).fs args.training_dir = some tmp := by
    rw [hfs1]
    show lookupA args.training_dir
        (writeFile ((mkChain (dirname (modelFilename args))).foldl addDir fs)
          (modelFilename args) "Dummy model.").dirEntries = some tmp
    rw [dirEntries_writeFile]
    exact lookupA_foldl_addDir_some htmp
  have h2 := @train_eq_of_listdir_some args ((train args fs).fs) tmp hld
  refine ⟨by rw [h2], ?_, ?_⟩
  · rw [h2]
    have hall : ∀ q ∈ mkChain (dirname (modelFilename args)),
        (lookupA q ((train args fs).fs).dirEntries).isSome := by
      intro q hq
      rw [hfs1, dirEntries_writeFile]
      exact lookupA_foldl_addDir_mem hq
    rw [foldl_addDir_id hall, hfs1]
    exact writeFile_idem _ _ _
  · rw [hfs1]
    simp only [writeFile, files_foldl_addDir]
    rw [List.filter_cons_of_pos (by simp), filter_eq_of_filter_ne]
    rfl

theorem rerun_idempotent_witness :
    (train argsStd (train argsStd fsAB).fs).result = .ok () ∧
    (train argsStd (train argsStd fsAB).fs).fs = (train argsStd fsAB).fs ∧
    ((train argsStd fsAB).fs.files.filter
        (fun kv => kv.1 = modelFilename argsStd)).length = 1 :=
  rerun_idempotent argsStd fsAB (by decide)

/-! ## C7 -/

/-- C7 counterexample: a training directory holding exactly the files
`a.csv` and `b.csv` — but whose filesystem listing order is reversed —
is reported as `["b.csv", "a.csv"]`, not `["a.csv", "b.csv"]`:
`os.listdir` reports the entries in the order the OS provides them, and
no particular order is guaranteed for a given set of files. -/
theorem listing_order_counterexample :
    listdir fsBA "/data" = some ["b.csv", "a.csv"] ∧
    ["b.csv", "a.csv"].Perm ["a.csv", "b.csv"] ∧
    Event.printListing ["b.csv", "a.csv"] ∈ (train argsStd fsBA).events ∧
    Event.printListing ["a.csv", "b.csv"] ∉ (train argsStd fsBA).events := by
  decide

/-- C7 amended: the listing step reports exactly the entry
sequence in the order the filesystem provides it (in particular, when
the entries of `training_dir` are `["a.csv", "b.csv"]` in that order,
the listing reports `["a.csv", "b.csv"]`). -/
theorem listing_reports_entries (args : Args) (fs : FS) (tmp : List String)
    (h : listdir fs args.training_dir = some tmp) :
    Event.printListing tmp ∈ (train args fs).events ∧
    ∀ l, Event.printListing l ∈ (train args fs).events → l = tmp := by
  rw [train_eq_of_listdir_some h]
  constructor
  · simp
  · intro l hl
    simp [epochEvents] at hl
    exact hl

theorem listing_reports_entries_witness :
    Event.printListing ["a.csv", "b.csv"] ∈ (train argsStd fsAB).events ∧
    ∀ l, Event.printListing l ∈ (train argsStd fsAB).events →
      l = ["a.csv", "b.csv"] :=
  listing_reports_entries argsStd fsAB ["a.csv", "b.csv"] (by decide)

/-! ## C8 -/

/-- C8: on a successful run the only persistent filesystem effects are
the artifact file and the model directory chain: the artifact holds the
fixed payload, every other file is untouched, every pre-existing
directory keeps its entry listing unchanged (in particular the entries
of `training_dir` are never modified), and any directory whose state
changed lies on the created `model_dir` chain. -/
theorem frame_only_artifact (args : Args) (fs : FS)
    (h : (listdir fs args.training_dir).isSome = true) :
    readFile (train args fs).fs (modelFilename args) = some "Dummy model." ∧
    (∀ p, p ≠ modelFilename args →
      readFile (train args fs).fs p = readFile fs p) ∧
    (∀ q v, lookupA q fs.dirEntries = some v →
      lookupA q (train args fs).fs.dirEntries = some v) ∧
    (∀ q, q ∉ mkChain (dirname (modelFilename args)) →
      lookupA q (train args fs).fs.dirEntries = lookupA q fs.dirEntries) := by
  obtain ⟨tmp, htmp⟩ := Option.isSome_iff_exists.mp h
  rw [train_eq_of_listdir_some htmp]
  refine ⟨readFile_writeFile_self _ _ _, fun p hp => ?_, fun q v hv => ?_,
    fun q hq => ?_⟩
  · rw [readFile_writeFile_ne _ hp]
    show lookupA p ((mkChain (dirname (modelFilename args))).foldl addDir fs).files
        = readFile fs p
    rw [files_foldl_addDir]
    rfl
  · rw [dirEntries_writeFile]
    exact lookupA_foldl_addDir_some hv
  · rw [dirEntries_writeFile]
    exact lookupA_foldl_addDir_not_mem hq

theorem frame_only_artifact_witness :
    readFile (train argsStd fsAB).fs (modelFilename argsStd)
      = some "Dummy model." ∧
    (∀ p, p ≠ modelFilename argsStd →
      readFile (train argsStd fsAB).fs p = readFile fsAB p) ∧
    (∀ q v, lookupA q fsAB.dirEntries = some v →
      lookupA q (train argsStd fsAB).fs.dirEntries = some v) ∧
    (∀ q, q ∉ mkChain (dirname (modelFilename argsStd)) →
      lookupA q (train argsStd fsAB).fs.dirEntries = lookupA q fsAB.dirEntries) :=
  frame_only_artifact argsStd fsAB (by decide)

/-! ## C9 -/

/-- Recognises the args-echo log event at the top of the run. -/
def isPrintArgs : Event → Bool :=
  fun e =>
    match e with
    | .printArgs _ _ _ => true
    | _ => false

/-- C9 counterexample: two runs differing only in `--checkpoint-dir` are
not observationally identical — the startup log line that echoes the args
echoes the checkpoint directory, so the event traces differ. -/
theorem checkpoint_visible_in_log :
    argsCk1.model_dir = argsCk2.model_dir ∧
    argsCk1.training_dir = argsCk2.training_dir ∧
    argsCk1.checkpoint_dir ≠ argsCk2.checkpoint_dir ∧
    (train argsCk1 fsAB).events ≠ (train argsCk2 fsAB).events := by
  decide

/-- C9 amended: `checkpoint_dir` never influences the result, the
filesystem effects, or any event after the initial args-echo line: two
runs differing only in `checkpoint_dir` have the same result, the same
final filesystem, and identical traces apart from that first log line
(no checkpoint is ever read or written). -/
theorem checkpoint_noninterference (a b : Args) (fs : FS)
    (h1 : a.model_dir = b.model_dir) (h2 : a.training_dir = b.training_dir) :
    (train a fs).result = (train b fs).result ∧
    (train a fs).fs = (train b fs).fs ∧
    (train a fs).events.tail = (train b fs).events.tail ∧
    (train a fs).events.length = (train b fs).events.length := by
  rcases a with ⟨am, ac, atr⟩
  rcases b with ⟨bm, bc, btr⟩
  dsimp only at h1 h2
  subst h1
  subst h2
  cases hld : listdir fs atr with
  | none =>
      rw [@train_eq_of_listdir_none ⟨am, ac, atr⟩ fs hld,
        @train_eq_of_listdir_none ⟨am, bc, atr⟩ fs hld]
      exact ⟨rfl, rfl, rfl, rfl⟩
  | some tmp =>
      rw [@train_eq_of_listdir_some ⟨am, ac, atr⟩ fs tmp hld,
        @train_eq_of_listdir_some ⟨am, bc, atr⟩ fs tmp hld]
      exact ⟨rfl, rfl, rfl, by simp⟩

theorem checkpoint_noninterference_witness :
    (train argsCk1 fsAB).result = (train argsCk2 fsAB).result ∧
    (train argsCk1 fsAB).fs = (train argsCk2 fsAB).fs ∧
    (train argsCk1 fsAB).events.tail = (train argsCk2 fsAB).events.tail ∧
    (train argsCk1 fsAB).events.length = (train argsCk2 fsAB).events.length :=
  checkpoint_noninterference argsCk1 argsCk2 fsAB rfl rfl

/-! ## C10 -/

/-- C10: the artifact path is the plain concatenation
`model_dir ++ "/model.dummy"`, and for every non-empty `model_dir` not
ending in a path separator the directory created before the write —
`dirname` of that concatenation — is `model_dir` itself, so the
artifact's containing directory exists at write time. -/
theorem artifact_path_dirname (args : Args) (h1 : args.model_dir ≠ "")
    (h2 : args.model_dir.data.getLast? ≠ some '/') :
    modelFilename args = args.model_dir ++ "/model.dummy" ∧
    dirname (modelFilename args) = args.model_dir ∧
    ∀ fs tmp, listdir fs args.training_dir = some tmp →
      Event.mkdirsCall args.model_dir ∈ (train args fs).events := by
  have hd : args.model_dir.data ≠ [] := by
    intro he
    exact h1 (String.ext he)
  have hdn := dirname_modelFilename args.model_dir hd h2
  have hdn' : dirname (modelFilename args) = args.model_dir := hdn
  refine ⟨rfl, hdn', fun fs tmp h => ?_⟩
  rw [train_eq_of_listdir_some h]
  have hm : Event.mkdirsCall args.model_dir
      = Event.mkdirsCall (dirname (modelFilename args)) := by rw [hdn']
  rw [hm]
  simp

theorem artifact_path_dirname_witness :
    modelFilename argsStd = argsStd.model_dir ++ "/model.dummy" ∧
    dirname (modelFilename argsStd) = argsStd.model_dir ∧
    ∀ fs tmp, listdir fs argsStd.training_dir = some tmp →
      Event.mkdirsCall argsStd.model_dir ∈ (train argsStd fs).events :=
  artifact_path_dirname argsStd (by decide) (by decide)
